import Mathlib

/-!
Shallow embedding of `src/cmdline.rs` from the `rsinit` repository: parsing
the Linux kernel command line into a `CmdlineOptions` record, applying each
recognized option, and NFS root resolution against an injected boot-server
record (the contents of `/proc/net/pnp`).

Rust `MsFlags` is modelled by a single `Bool` (the program only ever touches
the `MS_RDONLY` bit).  Rust `CString` is modelled by the `String` holding the
bytes before the terminating NUL.  A Rust panic (from `.unwrap()`) is
modelled by the distinguished outcome `Failure.panicked`, kept apart from an
ordinary returned error `Failure.error msg`.  The external file read inside
`parse_nfsroot` is modelled by a parameter `pnp : Except String String`
(`Except.error e` models a failing `read_to_string`).
-/

namespace Rsinit

/-- The ASCII single-quote character, used in the error message format
string of `ensure_value`. -/
def squote : String := String.mk [Char.ofNat 39]

/-- The NUL character. -/
def nulChar : Char := Char.ofNat 0

/-- Model of Rust `str::contains` with a `char` pattern: the character
occurs among the characters of the string. -/
def str_contains (s : String) (c : Char) : Bool :=
  s.toList.contains c

/-- Helper for `split_once`, working on the character list. -/
def splitOnceList (sep : Char) : List Char → Option (List Char × List Char)
  | [] => none
  | c :: cs =>
    if c = sep then some ([], cs)
    else (splitOnceList sep cs).map (fun p => (c :: p.1, p.2))

/-- Model of Rust `str::split_once`: split at the first occurrence of `sep`,
returning the parts before and after it, or `none` if `sep` does not occur. -/
def split_once (sep : Char) (s : String) : Option (String × String) :=
  (splitOnceList sep s.toList).map (fun p => (String.mk p.1, String.mk p.2))

/-- Strip one trailing carriage return from a line, used when the line was
terminated by a newline (Rust treats `\r\n` as one line ending). -/
def strip_cr (l : List Char) : List Char :=
  if l.getLast? = some '\r' then l.dropLast else l

/-- Helper for `rust_lines`: `acc` holds the characters of the current line
in reverse.  A newline emits the accumulated line (with a trailing carriage
return stripped); the end of the input emits the final unterminated line
as-is when non-empty (the final line ending is optional). -/
def rust_lines_aux : List Char → List Char → List (List Char)
  | acc, [] => if acc.isEmpty then [] else [acc.reverse]
  | acc, c :: cs =>
    if c = '\n' then strip_cr acc.reverse :: rust_lines_aux [] cs
    else rust_lines_aux (c :: acc) cs

/-- Model of Rust `str::lines`: lines are split at `\n` or `\r\n`, and the
final line ending is optional. -/
def rust_lines (s : String) : List String :=
  (rust_lines_aux [] s.toList).map String.mk

/-- The `CmdlineOptions` struct of `cmdline.rs`.  `rootfsflags` is the
`MS_RDONLY` bit; `init` holds the bytes of the `CString` before the NUL. -/
@[ext]
structure CmdlineOptions where
  root : Option String
  rootfstype : Option String
  rootflags : Option String
  rootfsflags : Bool
  nfsroot : Option String
  init : String
  deriving Repr, DecidableEq

/-- The `Default` impl of `CmdlineOptions`: everything unset, read-only bit
set, `init = "/sbin/init"`. -/
def CmdlineOptions.default : CmdlineOptions :=
  { root := none
    rootfstype := none
    rootflags := none
    rootfsflags := true
    nfsroot := none
    init := "/sbin/init" }

/-- Outcome of a fallible step: an ordinary returned error (Rust
`Err(...)` carrying a message), or a Rust panic (`.unwrap()` on a failed
conversion), which aborts instead of returning. -/
inductive Failure where
  | error (msg : String)
  | panicked
  deriving Repr, DecidableEq

/-- The `ensure_value` function: fail with the missing-argument message when
no value is present. -/
def ensure_value (key : String) (value : Option String) :
    Except Failure (Option String) :=
  if value.isNone then
    Except.error (Failure.error
      ("Cmdline option " ++ squote ++ key ++ squote ++ " must have an argument!"))
  else
    Except.ok value

/-- Model of `CString::new`: `none` (the `Err(NulError)` case) exactly when
the string contains an embedded NUL. -/
def cstring_new (s : String) : Option String :=
  if str_contains s nulChar then none else some s

/-- The `parse_option` function: apply one `(key, value)` pair to the
options record. -/
def parse_option (key : String) (value : Option String)
    (options : CmdlineOptions) : Except Failure CmdlineOptions :=
  match key with
  | "root" =>
    match ensure_value key value with
    | Except.error e => Except.error e
    | Except.ok v => Except.ok { options with root := v }
  | "rootfstype" =>
    match ensure_value key value with
    | Except.error e => Except.error e
    | Except.ok v => Except.ok { options with rootfstype := v }
  | "rootflags" => Except.ok { options with rootflags := value }
  | "ro" => Except.ok { options with rootfsflags := true }
  | "rw" => Except.ok { options with rootfsflags := false }
  | "nfsroot" =>
    match ensure_value key value with
    | Except.error e => Except.error e
    | Except.ok v => Except.ok { options with nfsroot := v }
  | "init" =>
    match ensure_value key value with
    | Except.error e => Except.error e
    | Except.ok none => Except.error Failure.panicked
    | Except.ok (some w) =>
      match cstring_new w with
      | none => Except.error Failure.panicked
      | some s => Except.ok { options with init := s }
  | _ => Except.ok options

/-- The `for line in pnp.lines()` loop of `parse_nfsroot`: scan the lines in
order; on the first line splitting as `key value` with `key = "bootserver"`,
prepend `value ++ ":"` to the root path, append `value` to the flags, and
stop.  Lines with no space are skipped. -/
def scan_bootserver : List String → String → String → String × String
  | [], nfsroot, rootflags => (nfsroot, rootflags)
  | line :: rest, nfsroot, rootflags =>
    match split_once ' ' line with
    | none => scan_bootserver rest nfsroot rootflags
    | some (key, value) =>
      if key = "bootserver" then (value ++ ":" ++ nfsroot, rootflags ++ value)
      else scan_bootserver rest nfsroot rootflags

/-- The tail of `parse_nfsroot` after the comma split: `nfsroot₁` is the
candidate root path and `rootflags₁` the flags accumulated so far (either
`"nolock"` alone or `"nolock" ++ "," ++ extra-options`). -/
def parse_nfsroot_tail (pnp : Except String String) (options : CmdlineOptions)
    (nfsroot₁ rootflags₁ : String) : Except Failure CmdlineOptions :=
  let rootflags₂ := rootflags₁ ++ ",addr="
  if str_contains nfsroot₁ ':' = false then
    match pnp with
    | Except.error e =>
      Except.error (Failure.error ("Failed to read /proc/net/pnp: " ++ e))
    | Except.ok content =>
      match scan_bootserver (rust_lines content) nfsroot₁ rootflags₂ with
      | (nfsroot₂, rootflags₃) =>
        Except.ok { options with
          root := some nfsroot₂
          rootflags := some rootflags₃
          rootfstype := some "nfs" }
  else
    match split_once ':' nfsroot₁ with
    | none => Except.error Failure.panicked
    | some (bootserver, _) =>
      Except.ok { options with
        root := some nfsroot₁
        rootflags := some (rootflags₂ ++ bootserver)
        rootfstype := some "nfs" }

/-- The `parse_nfsroot` function.  `pnp` injects the result of
`read_to_string("/proc/net/pnp")`, which the code performs only on the
no-colon branch. -/
def parse_nfsroot (pnp : Except String String) (options : CmdlineOptions) :
    Except Failure CmdlineOptions :=
  match options.nfsroot with
  | none => Except.error (Failure.error "Missing nfsroot command-line option!")
  | some nfsroot_option =>
    match split_once ',' nfsroot_option with
    | none => parse_nfsroot_tail pnp options nfsroot_option "nolock"
    | some (root, flags) =>
      parse_nfsroot_tail pnp options root ("nolock" ++ "," ++ flags)

/-- The per-character state of the `parse_cmdline` loop: the `have_value`
and `quoted` flags and the accumulated `key` and `value` buffers. -/
structure TokState where
  have_value : Bool
  quoted : Bool
  key : String
  value : String
  deriving Repr, DecidableEq

/-- The initial loop state: both flags clear, both buffers empty. -/
def TokState.init : TokState :=
  { have_value := false, quoted := false, key := "", value := "" }

/-- One iteration of the `for c in cmdline.chars()` loop body of
`parse_cmdline`: the next state, and the completed `(key, value)` pair when
an unquoted separator closes a non-empty key (the `parse_option` call site). -/
def step_char (st : TokState) (c : Char) :
    TokState × Option (String × Option String) :=
  if c = '=' then
    if st.have_value then
      ({ st with value := st.value.push '=' }, none)
    else
      ({ st with have_value := true }, none)
  else if c = '"' then
    ({ st with quoted := !st.quoted }, none)
  else if (c = ' ' || c = '\n') && !st.quoted then
    ({ st with have_value := false, key := "", value := "" },
      if st.key.isEmpty then none
      else some (st.key, if st.have_value then some st.value else none))
  else
    if st.have_value then
      ({ st with value := st.value.push c }, none)
    else
      ({ st with key := st.key.push c }, none)

/-- The character loop of `parse_cmdline`: run `step_char` over the
characters, dispatching each completed pair to `parse_option` and
propagating its errors.  Nothing is dispatched when the characters run out. -/
def run_chars : List Char → TokState → CmdlineOptions →
    Except Failure CmdlineOptions
  | [], _, options => Except.ok options
  | c :: cs, st, options =>
    match step_char st c with
    | (st', none) => run_chars cs st' options
    | (st', some (k, v)) =>
      match parse_option k v options with
      | Except.error e => Except.error e
      | Except.ok options' => run_chars cs st' options'

/-- The option pass of `parse_cmdline`: the character loop from the initial
state, before the NFS check. -/
def parse_cmdline_options (cmdline : String) (options : CmdlineOptions) :
    Except Failure CmdlineOptions :=
  run_chars cmdline.toList TokState.init options

/-- The `parse_cmdline` function: run the option pass, then, when the root
is NFS-designated, rewrite the configuration through `parse_nfsroot`. -/
def parse_cmdline (cmdline : String) (pnp : Except String String)
    (options : CmdlineOptions) : Except Failure CmdlineOptions :=
  match parse_cmdline_options cmdline options with
  | Except.error e => Except.error e
  | Except.ok options =>
    if options.root = some "/dev/nfs" ∨ options.rootfstype = some "nfs" then
      parse_nfsroot pnp options
    else
      Except.ok options

/-!
Helper lemmas about the tokenizer loop.
-/

/-- A character that is neither a space nor a newline never completes an
option pair. -/
theorem step_char_snd_eq_none (st : TokState) (c : Char)
    (h1 : c ≠ ' ') (h2 : c ≠ '\n') : (step_char st c).2 = none := by
  unfold step_char
  split
  · split <;> rfl
  · split
    · rfl
    · split
      · rename_i hsep
        simp [h1, h2] at hsep
      · split <;> rfl

/-- Running the loop over characters that contain no separator dispatches
nothing: the options record comes back unchanged. -/
theorem run_chars_no_sep (cs : List Char) (st : TokState)
    (opts : CmdlineOptions) (h : ∀ c ∈ cs, ¬(c = ' ' ∨ c = '\n')) :
    run_chars cs st opts = Except.ok opts := by
  induction cs generalizing st with
  | nil => rfl
  | cons c cs ih =>
    have hc := h c (List.mem_cons_self c cs)
    have h1 : c ≠ ' ' := fun hcc => hc (Or.inl hcc)
    have h2 : c ≠ '\n' := fun hcc => hc (Or.inr hcc)
    have hnone := step_char_snd_eq_none st c h1 h2
    unfold run_chars
    rcases hstep : step_char st c with ⟨st', e⟩
    rw [hstep] at hnone
    simp only at hnone
    subst hnone
    exact ih st' (fun d hd => h d (List.mem_cons_of_mem c hd))

/-!
Claim C1.  The claim asserts that an option terminated by the end of the
input (no trailing separator) is still flushed and dispatched.  The loop in
`parse_cmdline` dispatches only on an unquoted space or newline and performs
no flush after the loop, so the claim is false; the counterexample below
shows `"root=/dev/sda"` (no trailing newline) leaving the whole
configuration at its default, while the amended theorem records the actual
behaviour: trailing accumulated characters are discarded, and the same
option followed by a newline does set `root`.
-/

/-- Claim C1, counterexample: parsing `"root=/dev/sda"` with no trailing
newline does not set `root`; the configuration comes back exactly at its
default (in particular `root = none`, not `some "/dev/sda"`). -/
theorem c1_counterexample :
    parse_cmdline "root=/dev/sda" (Except.ok "") CmdlineOptions.default =
      Except.ok CmdlineOptions.default ∧
    CmdlineOptions.default.root = none :=
  ⟨rfl, rfl⟩

/-- Claim C1, amended: an option reaching the end of the input without an
unquoted separator is never dispatched — a cmdline containing no space and
no newline at all leaves the options record unchanged — while the same
option terminated by a newline is dispatched as usual. -/
theorem c1_no_flush_at_end_of_input :
    (∀ (s : String) (opts : CmdlineOptions),
      (∀ c ∈ s.toList, ¬(c = ' ' ∨ c = '\n')) →
      parse_cmdline_options s opts = Except.ok opts) ∧
    parse_cmdline "root=/dev/sda\n" (Except.ok "") CmdlineOptions.default =
      Except.ok { CmdlineOptions.default with root := some "/dev/sda" } := by
  constructor
  · intro s opts h
    exact run_chars_no_sep s.toList TokState.init opts h
  · rfl

/-- Witness for `c1_no_flush_at_end_of_input` at the concrete input
`"root=/dev/sda"`. -/
theorem c1_no_flush_witness :
    parse_cmdline_options "root=/dev/sda" CmdlineOptions.default =
      Except.ok CmdlineOptions.default :=
  c1_no_flush_at_end_of_input.1 "root=/dev/sda" CmdlineOptions.default
    (by decide)

/-!
Claim C2.  The claim asserts that `rootflags` with no value fails with a
missing-argument error.  The `"rootflags"` arm of `parse_option` is the one
value-carrying arm that does not call `ensure_value`: it assigns the value
(including `None`) directly, so the claim is false.
-/

/-- Claim C2, counterexample: applying the pair `("rootflags", none)`
succeeds (no error of any kind) and leaves `rootflags = none`. -/
theorem c2_counterexample :
    parse_option "rootflags" none CmdlineOptions.default =
      Except.ok CmdlineOptions.default ∧
    CmdlineOptions.default.rootflags = none :=
  ⟨rfl, rfl⟩

/-- Claim C2, amended: applying `("rootflags", v)` always succeeds and
assigns `v` to the `rootflags` field verbatim; in particular `v = none` is
silently assigned rather than rejected with a missing-argument error. -/
theorem c2_rootflags_none_silently_assigned
    (opts : CmdlineOptions) (v : Option String) :
    parse_option "rootflags" v opts = Except.ok { opts with rootflags := v } :=
  rfl

/-!
Claim C3.  The claim asserts that an `init` value with an embedded NUL is
rejected with a returned `InvalidValue` error and that the code does not
abort by any other means.  The `"init"` arm of `parse_option` calls
`CString::new(...).unwrap()`, and `unwrap` on the `NulError` case is a
panic — an abort, not a returned error — so the claim is false.
-/

/-- Claim C3, counterexample: applying `("init", some "a\x00b")` (embedded
NUL) ends in a panic (`Failure.panicked`), not in a returned error. -/
theorem c3_counterexample :
    parse_option "init" (some (String.mk ['a', nulChar, 'b']))
      CmdlineOptions.default = Except.error Failure.panicked :=
  rfl

/-- Claim C3, amended: for every `init` value containing an embedded NUL,
applying the pair aborts with a panic (the `unwrap` of the failed `CString`
conversion) instead of returning an error to the caller. -/
theorem c3_init_nul_panics (opts : CmdlineOptions) (v : String)
    (h : str_contains v nulChar = true) :
    parse_option "init" (some v) opts = Except.error Failure.panicked := by
  unfold parse_option ensure_value cstring_new
  simp [h]

/-- Witness for `c3_init_nul_panics` at the concrete value `"a\x00b"`. -/
theorem c3_init_nul_panics_witness :
    parse_option "init" (some (String.mk ['a', nulChar, 'b']))
      CmdlineOptions.default = Except.error Failure.panicked :=
  c3_init_nul_panics CmdlineOptions.default (String.mk ['a', nulChar, 'b'])
    (by decide)

/-!
Claim C10.  An `init=` with an empty value is accepted: the empty string
contains no NUL, so the `CString` conversion succeeds and the `init` field
becomes the empty byte string.
-/

/-- Claim C10: applying `("init", some "")` succeeds and sets `init` to the
empty string, and the full parse of `"init=\n"` does the same from the
defaults. -/
theorem c10_init_empty_value :
    (∀ opts : CmdlineOptions,
      parse_option "init" (some "") opts = Except.ok { opts with init := "" }) ∧
    parse_cmdline "init=\n" (Except.ok "") CmdlineOptions.default =
      Except.ok { CmdlineOptions.default with init := "" } :=
  ⟨fun _ => rfl, rfl⟩

/-!
Claim C7.  The claim asserts that only the first *unquoted* `=` separates
key from value.  The `'='` arm of the loop does not consult the `quoted`
flag at all: the first `=` of an option acts as the separator even inside
double quotes.  The counterexample input `rootflags"="x` has its single `=`
between two quote characters, yet the code treats it as the separator and
sets `rootflags` to `"x"`; under the claim the quoted `=` would be a
literal key character, the key would be the unknown `rootflags=x`, and the
configuration would stay at its default.
-/

/-- Claim C7, counterexample: in `rootflags"="x` the only `=` is inside
quotes, yet it separates key from value: `rootflags` is set to `"x"`, and
the result is not the untouched default configuration that a
literally-kept quoted `=` would produce. -/
theorem c7_counterexample :
    parse_cmdline "rootflags\"=\"x\n" (Except.ok "") CmdlineOptions.default =
      Except.ok { CmdlineOptions.default with rootflags := some "x" } ∧
    parse_cmdline "rootflags\"=\"x\n" (Except.ok "") CmdlineOptions.default ≠
      Except.ok CmdlineOptions.default := by
  refine ⟨rfl, ?_⟩
  intro h
  have h2 : ({ CmdlineOptions.default with rootflags := some "x" } :
      CmdlineOptions) = CmdlineOptions.default := by
    have h1 : parse_cmdline "rootflags\"=\"x\n" (Except.ok "")
        CmdlineOptions.default =
        Except.ok { CmdlineOptions.default with rootflags := some "x" } := rfl
    rw [h1] at h
    exact Except.ok.inj h
  simp [CmdlineOptions.default] at h2

/-- Claim C7, amended: only the first `=` of an option — quoted or not —
separates key from value (it toggles `have_value` and is itself skipped),
every later `=` is kept literally as a value character, and the example
cmdline sets `rootflags` to exactly `trans=virtio`. -/
theorem c7_first_equals_separates :
    (∀ st : TokState, st.have_value = false →
      step_char st '=' = ({ st with have_value := true }, none)) ∧
    (∀ st : TokState, st.have_value = true →
      step_char st '=' = ({ st with value := st.value.push '=' }, none)) ∧
    parse_cmdline "root=rootdev rootfstype=9p rootflags=trans=virtio\n"
      (Except.ok "") CmdlineOptions.default =
      Except.ok { CmdlineOptions.default with
        root := some "rootdev"
        rootfstype := some "9p"
        rootflags := some "trans=virtio" } := by
  refine ⟨?_, ?_, rfl⟩
  · intro st h
    simp [step_char, h]
  · intro st h
    simp [step_char, h]

/-- Witness for `c7_first_equals_separates` at concrete loop states, one
with `have_value` clear (and, notably, `quoted` set) and one with
`have_value` set. -/
theorem c7_first_equals_witness :
    step_char { have_value := false, quoted := true, key := "k", value := "" } '=' =
      ({ have_value := true, quoted := true, key := "k", value := "" }, none) ∧
    step_char { have_value := true, quoted := false, key := "k", value := "v" } '=' =
      ({ have_value := true, quoted := false, key := "k", value := "v=" }, none) :=
  ⟨c7_first_equals_separates.1
      { have_value := false, quoted := true, key := "k", value := "" } rfl,
    c7_first_equals_separates.2.1
      { have_value := true, quoted := false, key := "k", value := "v" } rfl⟩

/-!
Claim C8.  Quoting: the quote character toggles `quoted` and is never
accumulated; while `quoted` is set no character completes an option, and a
space or newline seen while a value is being read is pushed onto the value
buffer as a literal character.
-/

/-- Claim C8: a double quote toggles quoted mode and is itself dropped
(both buffers unchanged); while quoted, no character dispatches an option
pair; a quoted space or newline inside a value is accumulated literally;
and a double-quoted value with an embedded space is delivered as a single
option, as in `rootflags="a b"`. -/
theorem c8_quoting :
    (∀ st : TokState,
      step_char st '"' = ({ st with quoted := !st.quoted }, none)) ∧
    (∀ (st : TokState) (c : Char), st.quoted = true →
      (step_char st c).2 = none) ∧
    (∀ (st : TokState) (c : Char), st.quoted = true → st.have_value = true →
      (c = ' ' ∨ c = '\n') →
      step_char st c = ({ st with value := st.value.push c }, none)) ∧
    parse_cmdline "rootflags=\"a b\"\n" (Except.ok "") CmdlineOptions.default =
      Except.ok { CmdlineOptions.default with rootflags := some "a b" } := by
  refine ⟨?_, ?_, ?_, rfl⟩
  · intro st
    rfl
  · intro st c h
    unfold step_char
    split
    · split <;> rfl
    · split
      · rfl
      · split
        · rename_i hsep
          simp [h] at hsep
        · split <;> rfl
  · intro st c hq hv hc
    rcases hc with hc | hc <;> subst hc <;> simp [step_char, hq, hv]

/-- Witness for `c8_quoting` at a concrete quoted state and the space
character. -/
theorem c8_quoting_witness :
    step_char { have_value := true, quoted := true, key := "rootflags", value := "a" } ' ' =
      ({ have_value := true, quoted := true, key := "rootflags", value := "a " }, none) :=
  c8_quoting.2.2.1
    { have_value := true, quoted := true, key := "rootflags", value := "a" }
    ' ' rfl rfl (Or.inl rfl)

/-!
Claim C9.  After the option pass, NFS resolution runs exactly when
`root = "/dev/nfs"` or `rootfstype = "nfs"`, and fails with the
missing-nfsroot error when `nfsroot` was never set.
-/

/-- Claim C9: if the option pass leaves `root = "/dev/nfs"` or
`rootfstype = "nfs"` while `nfsroot` is unset, the whole parse fails with
the missing-nfsroot error; and if neither condition holds, NFS resolution
is not attempted at all — the parse returns the option-pass result
unchanged. -/
theorem c9_missing_nfsroot :
    (∀ (s : String) (pnp : Except String String) (opts c : CmdlineOptions),
      parse_cmdline_options s opts = Except.ok c →
      (c.root = some "/dev/nfs" ∨ c.rootfstype = some "nfs") →
      c.nfsroot = none →
      parse_cmdline s pnp opts =
        Except.error (Failure.error "Missing nfsroot command-line option!")) ∧
    (∀ (s : String) (pnp : Except String String) (opts c : CmdlineOptions),
      parse_cmdline_options s opts = Except.ok c →
      ¬(c.root = some "/dev/nfs" ∨ c.rootfstype = some "nfs") →
      parse_cmdline s pnp opts = Except.ok c) := by
  constructor
  · intro s pnp opts c hpass hcond hnone
    unfold parse_cmdline
    rw [hpass]
    simp only [if_pos hcond]
    unfold parse_nfsroot
    rw [hnone]
  · intro s pnp opts c hpass hcond
    unfold parse_cmdline
    rw [hpass]
    simp only [if_neg hcond]

/-- Witness for `c9_missing_nfsroot`: `"root=/dev/nfs\n"` with no
`nfsroot=` fails with the missing-nfsroot error, and `"root=/dev/sda\n"`
skips NFS resolution. -/
theorem c9_missing_nfsroot_witness :
    parse_cmdline "root=/dev/nfs\n" (Except.ok "") CmdlineOptions.default =
      Except.error (Failure.error "Missing nfsroot command-line option!") ∧
    parse_cmdline "root=/dev/sda\n" (Except.ok "") CmdlineOptions.default =
      Except.ok { CmdlineOptions.default with root := some "/dev/sda" } :=
  ⟨c9_missing_nfsroot.1 "root=/dev/nfs\n" (Except.ok "")
      CmdlineOptions.default
      { CmdlineOptions.default with root := some "/dev/nfs" }
      rfl (Or.inl rfl) rfl,
    c9_missing_nfsroot.2 "root=/dev/sda\n" (Except.ok "")
      CmdlineOptions.default
      { CmdlineOptions.default with root := some "/dev/sda" }
      rfl (by intro h; rcases h with h | h <;> simp_all [CmdlineOptions.default])⟩

/-!
Helper lemmas about `split_once` and the bootserver scan.
-/

/-- A successful `splitOnceList` means the separator occurs in the list. -/
theorem splitOnceList_eq_some_contains (sep : Char) :
    ∀ (l : List Char) (p : List Char × List Char),
      splitOnceList sep l = some p → l.contains sep = true := by
  intro l
  induction l with
  | nil => intro p h; simp [splitOnceList] at h
  | cons c cs ih =>
    intro p h
    unfold splitOnceList at h
    split at h
    · rename_i hc
      simp [List.contains_cons, hc]
    · rcases hq : splitOnceList sep cs with _ | q
      · rw [hq] at h; simp at h
      · have hm := ih q hq
        simp only [List.contains_cons, Bool.or_eq_true, beq_iff_eq] at hm ⊢
        exact Or.inr hm

/-- A successful `split_once` means the separator occurs in the string. -/
theorem str_contains_of_split_once {sep : Char} {s : String}
    {p : String × String} (h : split_once sep s = some p) :
    str_contains s sep = true := by
  unfold split_once at h
  unfold str_contains
  rcases hq : splitOnceList sep s.toList with _ | q
  · rw [hq] at h; simp at h
  · exact splitOnceList_eq_some_contains sep s.toList q hq

/-- `splitOnceList` splits at the first occurrence of the separator. -/
theorem splitOnceList_prefix (sep : Char) :
    ∀ (pre tail : List Char), (∀ c ∈ pre, c ≠ sep) →
      splitOnceList sep (pre ++ sep :: tail) = some (pre, tail) := by
  intro pre
  induction pre with
  | nil =>
    intro tail _
    rw [List.nil_append]
    unfold splitOnceList
    simp
  | cons c cs ih =>
    intro tail h
    have hc : c ≠ sep := h c (List.mem_cons_self c cs)
    rw [List.cons_append]
    unfold splitOnceList
    simp [hc, ih tail (fun d hd => h d (List.mem_cons_of_mem c hd))]

/-- Splitting `"bootserver " ++ v` at the first space yields the key
`"bootserver"` and the value `v`. -/
theorem split_once_bootserver (v : String) :
    split_once ' ' ("bootserver " ++ v) = some ("bootserver", v) := by
  unfold split_once
  have h1 : ("bootserver " ++ v).toList = "bootserver".toList ++ ' ' :: v.toList := by
    show ("bootserver " ++ v).data = "bootserver".data ++ ' ' :: v.data
    rw [String.data_append]
    have h2 : "bootserver ".data = "bootserver".data ++ [' '] := by decide
    rw [h2, List.append_assoc]
    rfl
  rw [h1, splitOnceList_prefix ' ' "bootserver".toList v.toList (by decide)]
  rfl

/-- The defining equation of `scan_bootserver` on a non-empty line list. -/
theorem scan_bootserver_cons (line : String) (rest : List String)
    (n f : String) :
    scan_bootserver (line :: rest) n f =
      match split_once ' ' line with
      | none => scan_bootserver rest n f
      | some (key, value) =>
        if key = "bootserver" then (value ++ ":" ++ n, f ++ value)
        else scan_bootserver rest n f :=
  rfl

/-- Scanning lines none of which is a `bootserver` line skips them all. -/
theorem scan_bootserver_skip :
    ∀ (pre rest : List String) (n f : String),
      (∀ l ∈ pre, ∀ w : String, split_once ' ' l ≠ some ("bootserver", w)) →
      scan_bootserver (pre ++ rest) n f = scan_bootserver rest n f := by
  intro pre
  induction pre with
  | nil => intro rest n f _; rfl
  | cons l ls ih =>
    intro rest n f h
    have hl := h l (List.mem_cons_self l ls)
    have hrest := ih rest n f (fun d hd => h d (List.mem_cons_of_mem l hd))
    rw [List.cons_append, scan_bootserver_cons]
    rcases hs : split_once ' ' l with _ | ⟨k, w⟩
    · simp only
      exact hrest
    · have hk : ¬(k = "bootserver") := by
        intro hkk
        subst hkk
        exact hl w hs
      simp only [if_neg hk]
      exact hrest

/-- Scanning a `bootserver` line prepends the host to the root path and
appends it to the flags, ignoring the remaining lines. -/
theorem scan_bootserver_hit (v : String) (rest : List String) (n f : String) :
    scan_bootserver (("bootserver " ++ v) :: rest) n f =
      (v ++ ":" ++ n, f ++ v) := by
  unfold scan_bootserver
  rw [split_once_bootserver]
  simp

/-!
Claim C5.  NFS resolution when the candidate root path (the part of the
`nfsroot` value before the first comma) already contains a colon: the
configuration is rewritten to `root = host:export-path`,
`rootflags = "nolock"` (plus the post-comma options when present) followed
by `",addr="` and the host, and `rootfstype = "nfs"`.
-/

/-- Claim C5: when the pre-comma part of `nfsroot` contains a colon, the
final `root` is that `host:export-path`, `rootflags` is `"nolock"`, then a
comma and the post-comma options verbatim when they exist, then `",addr="`
and the host before the first colon, and `rootfstype` is `"nfs"`; the
spec's cmdline example evaluates exactly as stated. -/
theorem c5_nfsroot_with_colon :
    (∀ (pnp : Except String String) (opts : CmdlineOptions)
      (s cand flags host rest : String),
      opts.nfsroot = some s →
      split_once ',' s = some (cand, flags) →
      split_once ':' cand = some (host, rest) →
      parse_nfsroot pnp opts = Except.ok { opts with
        root := some cand
        rootflags := some ("nolock" ++ "," ++ flags ++ ",addr=" ++ host)
        rootfstype := some "nfs" }) ∧
    (∀ (pnp : Except String String) (opts : CmdlineOptions)
      (s host rest : String),
      opts.nfsroot = some s →
      split_once ',' s = none →
      split_once ':' s = some (host, rest) →
      parse_nfsroot pnp opts = Except.ok { opts with
        root := some s
        rootflags := some ("nolock" ++ ",addr=" ++ host)
        rootfstype := some "nfs" }) ∧
    parse_cmdline "root=/dev/nfs nfsroot=192.168.42.23:/path/to/nfsroot,v3,tcp ro\n"
      (Except.ok "") CmdlineOptions.default = Except.ok
      { root := some "192.168.42.23:/path/to/nfsroot"
        rootfstype := some "nfs"
        rootflags := some "nolock,v3,tcp,addr=192.168.42.23"
        rootfsflags := true
        nfsroot := some "192.168.42.23:/path/to/nfsroot,v3,tcp"
        init := "/sbin/init" } := by
  refine ⟨?_, ?_, rfl⟩
  · intro pnp opts s cand flags host rest hn hsplit hcolon
    have hcontains := str_contains_of_split_once hcolon
    simp [parse_nfsroot, parse_nfsroot_tail, hn, hsplit, hcolon, hcontains]
  · intro pnp opts s host rest hn hsplit hcolon
    have hcontains := str_contains_of_split_once hcolon
    simp [parse_nfsroot, parse_nfsroot_tail, hn, hsplit, hcolon, hcontains]

/-- Witness for `c5_nfsroot_with_colon` at the spec's example `nfsroot`
value with and without post-comma options. -/
theorem c5_nfsroot_with_colon_witness :
    parse_nfsroot (Except.ok "")
      { CmdlineOptions.default with
        nfsroot := some "192.168.42.23:/path/to/nfsroot,v3,tcp" } =
      Except.ok { CmdlineOptions.default with
        nfsroot := some "192.168.42.23:/path/to/nfsroot,v3,tcp"
        root := some "192.168.42.23:/path/to/nfsroot"
        rootflags := some ("nolock" ++ "," ++ "v3,tcp" ++ ",addr=" ++ "192.168.42.23")
        rootfstype := some "nfs" } ∧
    parse_nfsroot (Except.ok "")
      { CmdlineOptions.default with nfsroot := some "10.0.0.1:/export" } =
      Except.ok { CmdlineOptions.default with
        nfsroot := some "10.0.0.1:/export"
        root := some "10.0.0.1:/export"
        rootflags := some ("nolock" ++ ",addr=" ++ "10.0.0.1")
        rootfstype := some "nfs" } :=
  ⟨c5_nfsroot_with_colon.1 (Except.ok "")
      { CmdlineOptions.default with
        nfsroot := some "192.168.42.23:/path/to/nfsroot,v3,tcp" }
      "192.168.42.23:/path/to/nfsroot,v3,tcp" "192.168.42.23:/path/to/nfsroot"
      "v3,tcp" "192.168.42.23" "/path/to/nfsroot" rfl (by rfl) (by rfl),
    c5_nfsroot_with_colon.2.1 (Except.ok "")
      { CmdlineOptions.default with nfsroot := some "10.0.0.1:/export" }
      "10.0.0.1:/export" "10.0.0.1" "/export" rfl (by rfl) (by rfl)⟩

/-!
Claim C6.  NFS resolution when the candidate root path contains no colon:
the boot-server record is scanned in line order for the first line whose
key is `"bootserver"`; its value host-qualifies the root path and is
appended to the flags, later `bootserver` lines being ignored; with no such
line the configuration still comes back successfully, `rootflags` ending in
the literal `"addr="` and `root` not host-qualified.
-/

/-- Claim C6: with `nfsroot` set, no colon in the candidate root path, and
the boot-server record supplied, (a) when no line of the record splits as
`bootserver value`, resolution succeeds with `root` the unqualified
candidate path and `rootflags` ending in the literal `"addr="`; (b) the
first `bootserver` line prepends `value ++ ":"` to the root path and
appends the value to `rootflags`, the lines after it — including further
`bootserver` lines — having no effect. -/
theorem c6_bootserver_scan :
    ∀ (content : String) (opts : CmdlineOptions) (s cand base : String),
      opts.nfsroot = some s →
      (match split_once ',' s with
        | none => (s, "nolock")
        | some (root, flags) => (root, "nolock" ++ "," ++ flags)) = (cand, base) →
      str_contains cand ':' = false →
      ((∀ l ∈ rust_lines content, ∀ w : String,
          split_once ' ' l ≠ some ("bootserver", w)) →
        parse_nfsroot (Except.ok content) opts = Except.ok { opts with
          root := some cand
          rootflags := some (base ++ ",addr=")
          rootfstype := some "nfs" }) ∧
      (∀ (pre rest : List String) (v : String),
        rust_lines content = pre ++ ("bootserver " ++ v) :: rest →
        (∀ l ∈ pre, ∀ w : String, split_once ' ' l ≠ some ("bootserver", w)) →
        parse_nfsroot (Except.ok content) opts = Except.ok { opts with
          root := some (v ++ ":" ++ cand)
          rootflags := some (base ++ ",addr=" ++ v)
          rootfstype := some "nfs" }) := by
  intro content opts s cand base hn hsplit hcolon
  have hstart : parse_nfsroot (Except.ok content) opts =
      parse_nfsroot_tail (Except.ok content) opts cand base := by
    rcases hc : split_once ',' s with _ | ⟨root, flags⟩ <;>
      simp only [hc, Prod.mk.injEq] at hsplit <;>
      obtain ⟨h1, h2⟩ := hsplit <;>
      subst h1 <;> subst h2 <;>
      simp [parse_nfsroot, hn, hc]
  constructor
  · intro hnob
    rw [hstart]
    have hscan : scan_bootserver (rust_lines content) cand (base ++ ",addr=") =
        (cand, base ++ ",addr=") := by
      have h0 := scan_bootserver_skip (rust_lines content) [] cand
        (base ++ ",addr=") hnob
      rw [List.append_nil] at h0
      exact h0
    simp [parse_nfsroot_tail, hcolon, hscan]
  · intro pre rest v hlines hnob
    rw [hstart]
    have hscan : scan_bootserver (rust_lines content) cand (base ++ ",addr=") =
        (v ++ ":" ++ cand, (base ++ ",addr=") ++ v) := by
      rw [hlines,
        scan_bootserver_skip pre (("bootserver " ++ v) :: rest) cand
          (base ++ ",addr=") hnob,
        scan_bootserver_hit]
    simp [parse_nfsroot_tail, hcolon, hscan]

/-- Witness for `c6_bootserver_scan`: a record whose first line is not a
`bootserver` line and whose second and third are, showing the first
`bootserver` value winning; and a record with no `bootserver` line leaving
`rootflags` ending in `"addr="`. -/
theorem c6_bootserver_scan_witness :
    parse_nfsroot
      (Except.ok "ipaddr 1.2.3.4\nbootserver 10.0.0.1\nbootserver 10.9.9.9\n")
      { CmdlineOptions.default with nfsroot := some "/exports/root,v3" } =
      Except.ok { CmdlineOptions.default with
        nfsroot := some "/exports/root,v3"
        root := some ("10.0.0.1" ++ ":" ++ "/exports/root")
        rootflags := some ("nolock" ++ "," ++ "v3" ++ ",addr=" ++ "10.0.0.1")
        rootfstype := some "nfs" } ∧
    parse_nfsroot (Except.ok "ipaddr 1.2.3.4\n")
      { CmdlineOptions.default with nfsroot := some "/exports/root" } =
      Except.ok { CmdlineOptions.default with
        nfsroot := some "/exports/root"
        root := some "/exports/root"
        rootflags := some ("nolock" ++ ",addr=")
        rootfstype := some "nfs" } := by
  have hno : ∀ l ∈ ["ipaddr 1.2.3.4"], ∀ w : String,
      split_once ' ' l ≠ some ("bootserver", w) := by
    intro l hl w hcontra
    simp only [List.mem_singleton] at hl
    subst hl
    rw [show split_once ' ' "ipaddr 1.2.3.4" = some ("ipaddr", "1.2.3.4") from rfl]
      at hcontra
    have := (Prod.mk.injEq _ _ _ _).mp (Option.some.inj hcontra)
    exact absurd this.1 (by decide)
  constructor
  · exact (c6_bootserver_scan
      "ipaddr 1.2.3.4\nbootserver 10.0.0.1\nbootserver 10.9.9.9\n"
      { CmdlineOptions.default with nfsroot := some "/exports/root,v3" }
      "/exports/root,v3" "/exports/root" ("nolock" ++ "," ++ "v3")
      rfl (by rfl) (by decide)).2
      ["ipaddr 1.2.3.4"] ["bootserver 10.9.9.9"] "10.0.0.1"
      (by rfl) hno
  · exact (c6_bootserver_scan "ipaddr 1.2.3.4\n"
      { CmdlineOptions.default with nfsroot := some "/exports/root" }
      "/exports/root" "/exports/root" "nolock"
      rfl (by rfl) (by decide)).1 hno

/-!
Helper lemmas for claim C4: how one `parse_option` application is shaped.
-/

/-- Whether `parse_option` succeeds depends only on the key and value, not
on the options record it is applied to. -/
theorem parse_option_ok_of_ok {k : String} {v : Option String}
    {opts o : CmdlineOptions} (h : parse_option k v opts = Except.ok o)
    (opts' : CmdlineOptions) : ∃ o', parse_option k v opts' = Except.ok o' := by
  unfold parse_option at h ⊢
  split at h
  · rcases v with _ | w
    · simp [ensure_value] at h
    · exact ⟨{ opts' with root := some w }, by simp [ensure_value]⟩
  · rcases v with _ | w
    · simp [ensure_value] at h
    · exact ⟨{ opts' with rootfstype := some w }, by simp [ensure_value]⟩
  · exact ⟨{ opts' with rootflags := v }, rfl⟩
  · exact ⟨{ opts' with rootfsflags := true }, rfl⟩
  · exact ⟨{ opts' with rootfsflags := false }, rfl⟩
  · rcases v with _ | w
    · simp [ensure_value] at h
    · exact ⟨{ opts' with nfsroot := some w }, by simp [ensure_value]⟩
  · rcases v with _ | w
    · simp [ensure_value] at h
    · simp [ensure_value] at h
      rcases hc : cstring_new w with _ | s
      · rw [hc] at h
        cases h
      · exact ⟨{ opts' with init := s }, by simp [ensure_value, hc]⟩
  · exact ⟨opts', rfl⟩

/-- The fields of a successful `parse_option` result, as a function of the
key, the value, and the fields of the input record. -/
theorem parse_option_ok_fields {k : String} {v : Option String}
    {opts o : CmdlineOptions} (h : parse_option k v opts = Except.ok o) :
    o.root = (if k = "root" then v else opts.root) ∧
    o.rootfstype = (if k = "rootfstype" then v else opts.rootfstype) ∧
    o.rootflags = (if k = "rootflags" then v else opts.rootflags) ∧
    o.rootfsflags = (if k = "ro" then true
      else if k = "rw" then false else opts.rootfsflags) ∧
    o.nfsroot = (if k = "nfsroot" then v else opts.nfsroot) ∧
    o.init = (if k = "init" then v.getD opts.init else opts.init) := by
  unfold parse_option at h
  split at h
  · rcases v with _ | w
    · simp [ensure_value] at h
    · simp [ensure_value] at h
      subst h
      simp
  · rcases v with _ | w
    · simp [ensure_value] at h
    · simp [ensure_value] at h
      subst h
      simp
  · injection h with h
    subst h
    simp
  · injection h with h
    subst h
    simp
  · injection h with h
    subst h
    simp
  · rcases v with _ | w
    · simp [ensure_value] at h
    · simp [ensure_value] at h
      subst h
      simp
  · rcases v with _ | w
    · simp [ensure_value] at h
    · simp [ensure_value] at h
      rcases hc : cstring_new w with _ | s
      · rw [hc] at h
        cases h
      · rw [hc] at h
        injection h with h
        subst h
        have hs : s = w := by
          unfold cstring_new at hc
          split at hc
          · cases hc
          · exact (Option.some.inj hc).symm
        subst hs
        simp
  · rename_i hk1 hk2 hk3 hk4 hk5 hk6 hk7
    injection h with h
    subst h
    rw [if_neg hk1, if_neg hk2, if_neg hk3, if_neg hk4, if_neg hk5,
      if_neg hk6, if_neg hk7]
    exact ⟨rfl, rfl, rfl, rfl, rfl, rfl⟩

/-- Two single-field conditional assignments against distinct keys can be
applied in either order. -/
theorem swap_ite {α : Sort _} {k1 k2 : String} (K : String) (hne : k1 ≠ k2)
    (v1 v2 d : α) :
    (if k2 = K then v2 else if k1 = K then v1 else d) =
    (if k1 = K then v1 else if k2 = K then v2 else d) := by
  by_cases p1 : k1 = K <;> by_cases p2 : k2 = K <;> simp_all

/-- The read-only bit after `ro`/`rw` updates for two distinct keys that
are not the conflicting `ro`/`rw` pair is order-independent. -/
theorem swap_ro_rw {k1 k2 : String} (hne : k1 ≠ k2)
    (hn1 : ¬(k1 = "ro" ∧ k2 = "rw")) (hn2 : ¬(k1 = "rw" ∧ k2 = "ro"))
    (d : Bool) :
    (if k2 = "ro" then true else if k2 = "rw" then false else
      if k1 = "ro" then true else if k1 = "rw" then false else d) =
    (if k1 = "ro" then true else if k1 = "rw" then false else
      if k2 = "ro" then true else if k2 = "rw" then false else d) := by
  by_cases a1 : k1 = "ro" <;> by_cases a2 : k2 = "ro" <;>
    by_cases b1 : k1 = "rw" <;> by_cases b2 : k2 = "rw" <;> simp_all

/-- The `init` field after updates for two distinct keys is
order-independent. -/
theorem swap_init {k1 k2 : String} (hne : k1 ≠ k2) (v1 v2 : Option String)
    (d : String) :
    (if k2 = "init" then v2.getD (if k1 = "init" then v1.getD d else d)
      else if k1 = "init" then v1.getD d else d) =
    (if k1 = "init" then v1.getD (if k2 = "init" then v2.getD d else d)
      else if k2 = "init" then v2.getD d else d) := by
  by_cases p1 : k1 = "init" <;> by_cases p2 : k2 = "init" <;> simp_all

/-!
Claim C4.  The claim asserts (among last-wins properties that do hold) that
swapping two options with distinct keys never changes the final
configuration.  The keys `ro` and `rw` are distinct yet both act on the
same read-only bit, so swapping them flips the result: the claim as stated
is false.  The amended theorem carries the order-independence for every
pair of distinct keys other than the `ro`/`rw` pair, together with the
last-wins behaviour of each scalar field and of the read-only bit.
-/

/-- Claim C4, counterexample: `"ro rw\n"` and `"rw ro\n"` are swaps of two
options with distinct keys, yet they parse to different configurations
(read-only bit cleared versus set). -/
theorem c4_counterexample :
    parse_cmdline "ro rw\n" (Except.ok "") CmdlineOptions.default =
      Except.ok { CmdlineOptions.default with rootfsflags := false } ∧
    parse_cmdline "rw ro\n" (Except.ok "") CmdlineOptions.default =
      Except.ok { CmdlineOptions.default with rootfsflags := true } ∧
    ({ CmdlineOptions.default with rootfsflags := false } : CmdlineOptions) ≠
      { CmdlineOptions.default with rootfsflags := true } := by
  refine ⟨rfl, rfl, ?_⟩
  intro h
  have := congrArg CmdlineOptions.rootfsflags h
  simp at this

/-- Claim C4, amended: applying two option pairs with distinct keys in
either order gives the same successful result, provided the pair of keys is
not the conflicting `ro`/`rw` pair; each scalar-valued key (`root`,
`rootfstype`, `rootflags`, `nfsroot`, `init`) overwrites its field with the
newly supplied value, so the last occurrence wins; and the read-only bit is
last-wins for `ro`/`rw` specifically: `ro` then `rw` clears it, `rw` then
`ro` sets it. -/
theorem c4_last_wins :
    (∀ (k1 k2 : String) (v1 v2 : Option String) (opts r : CmdlineOptions),
      k1 ≠ k2 → ¬(k1 = "ro" ∧ k2 = "rw") → ¬(k1 = "rw" ∧ k2 = "ro") →
      Except.bind (parse_option k1 v1 opts) (parse_option k2 v2) =
        Except.ok r →
      Except.bind (parse_option k2 v2 opts) (parse_option k1 v1) =
        Except.ok r) ∧
    (∀ (opts : CmdlineOptions) (v : String),
      parse_option "root" (some v) opts =
        Except.ok { opts with root := some v }) ∧
    (∀ (opts : CmdlineOptions) (v : String),
      parse_option "rootfstype" (some v) opts =
        Except.ok { opts with rootfstype := some v }) ∧
    (∀ (opts : CmdlineOptions) (v : String),
      parse_option "rootflags" (some v) opts =
        Except.ok { opts with rootflags := some v }) ∧
    (∀ (opts : CmdlineOptions) (v : String),
      parse_option "nfsroot" (some v) opts =
        Except.ok { opts with nfsroot := some v }) ∧
    (∀ (opts : CmdlineOptions) (v : String),
      str_contains v nulChar = false →
      parse_option "init" (some v) opts =
        Except.ok { opts with init := v }) ∧
    (∀ opts : CmdlineOptions,
      Except.bind (parse_option "ro" none opts) (parse_option "rw" none) =
        Except.ok { opts with rootfsflags := false }) ∧
    (∀ opts : CmdlineOptions,
      Except.bind (parse_option "rw" none opts) (parse_option "ro" none) =
        Except.ok { opts with rootfsflags := true }) := by
  refine ⟨?_, fun _ _ => rfl, fun _ _ => rfl, fun _ _ => rfl, fun _ _ => rfl,
    ?_, fun _ => rfl, fun _ => rfl⟩
  · intro k1 k2 v1 v2 opts r hne hn1 hn2 h
    rcases h1 : parse_option k1 v1 opts with e1 | m
    · rw [h1] at h
      simp [Except.bind] at h
    · rw [h1] at h
      simp only [Except.bind] at h
      obtain ⟨m2, h2⟩ := parse_option_ok_of_ok h opts
      obtain ⟨r2, h3⟩ := parse_option_ok_of_ok h1 m2
      obtain ⟨a1, a2, a3, a4, a5, a6⟩ := parse_option_ok_fields h1
      obtain ⟨b1, b2, b3, b4, b5, b6⟩ := parse_option_ok_fields h
      obtain ⟨c1, c2, c3, c4, c5, c6⟩ := parse_option_ok_fields h2
      obtain ⟨d1, d2, d3, d4, d5, d6⟩ := parse_option_ok_fields h3
      have hr : r2 = r := by
        refine CmdlineOptions.ext ?_ ?_ ?_ ?_ ?_ ?_
        · rw [d1, c1, b1, a1]
          exact (swap_ite "root" hne v1 v2 opts.root).symm
        · rw [d2, c2, b2, a2]
          exact (swap_ite "rootfstype" hne v1 v2 opts.rootfstype).symm
        · rw [d3, c3, b3, a3]
          exact (swap_ite "rootflags" hne v1 v2 opts.rootflags).symm
        · rw [d4, c4, b4, a4]
          exact (swap_ro_rw hne hn1 hn2 opts.rootfsflags).symm
        · rw [d5, c5, b5, a5]
          exact (swap_ite "nfsroot" hne v1 v2 opts.nfsroot).symm
        · rw [d6, c6, b6, a6]
          exact (swap_init hne v1 v2 opts.init).symm
      rw [h2]
      simp only [Except.bind]
      rw [h3, hr]
  · intro opts v h
    simp [parse_option, ensure_value, cstring_new, h]

/-- Witness for `c4_last_wins`: swapping the concrete distinct-key options
`root=a` and `rootfstype=b` from the defaults, and an `init` value with no
NUL. -/
theorem c4_last_wins_witness :
    Except.bind (parse_option "rootfstype" (some "b") CmdlineOptions.default)
      (parse_option "root" (some "a")) =
      Except.ok { CmdlineOptions.default with
        root := some "a", rootfstype := some "b" } ∧
    parse_option "init" (some "/bin/sh") CmdlineOptions.default =
      Except.ok { CmdlineOptions.default with init := "/bin/sh" } :=
  ⟨c4_last_wins.1 "root" "rootfstype" (some "a") (some "b")
      CmdlineOptions.default
      { CmdlineOptions.default with root := some "a", rootfstype := some "b" }
      (by decide) (by simp) (by simp) rfl,
    c4_last_wins.2.2.2.2.2.1 CmdlineOptions.default "/bin/sh" (by decide)⟩

end Rsinit
